import Mathlib

/-!
Verification of the multi-agent workflow orchestrator (packages
`orchestrator` and `agent` of the repository): the routing engine
(`router.go`-style rule table and `RouteAgent`), the regex-based error
classifier (`analyzeErrorContext`), the workflow controller loop
(`ExecuteWorkflow`, `checkIterationLimits`, `validateWorkflowHealth`,
`detectLoop`, error recovery) and the engineer's action parser
(`parseActions`).

Go strings are modelled as `List Char` (ASCII case folding; the inputs
the programme manipulates are ASCII).  Go `regexp.MatchString` on the
pattern fragment actually used by the source (literals, `\s*`, `\s+`,
`\w+`, `[\s\w]*`, `.*`, alternation, `(?i)` discharged by lower-casing)
is modelled by a small executable matcher.  Wall-clock time (the workflow
timeout and transition timestamps) is modelled by oracle inputs: each
loop iteration receives a `timedOut` flag standing for the
`time.Since(startTime) > timeout` test, and the agent invocation itself
is an oracle value (the LLM and tool side effects are external).
-/

/-- A Go string, as a list of characters. -/
abbrev GoStr := List Char

/-- Literal Go string. -/
def str (s : String) : GoStr := s.data

/-- ASCII lower-casing of one character (`strings.ToLower`, ASCII fragment). -/
def toLowerChar (c : Char) : Char :=
  if 'A' ≤ c ∧ c ≤ 'Z' then Char.ofNat (c.toNat + 32) else c

/-- `strings.ToLower` (ASCII fragment). -/
def toLowerStr (s : GoStr) : GoStr := s.map toLowerChar

/-- `strings.Contains(s, sub)`. -/
def goContains (s sub : GoStr) : Bool :=
  if sub.isPrefixOf s then true
  else
    match s with
    | [] => false
    | _ :: rest => goContains rest sub

/-- `strings.HasPrefix`. -/
def goHasPrefix (s pre : GoStr) : Bool := pre.isPrefixOf s

/-- `strings.TrimPrefix`. -/
def goTrimPrefix (s pre : GoStr) : GoStr :=
  if pre.isPrefixOf s then s.drop pre.length else s

/-- Whitespace characters trimmed by `strings.TrimSpace` (ASCII fragment). -/
def isSpaceChar (c : Char) : Bool :=
  c = ' ' ∨ c = '\t' ∨ c = '\n' ∨ c = '\r' ∨ c = '\x0b' ∨ c = '\x0c'

/-- `strings.TrimSpace` (ASCII fragment). -/
def goTrimSpace (s : GoStr) : GoStr :=
  ((s.dropWhile isSpaceChar).reverse.dropWhile isSpaceChar).reverse

/-- `strings.Split(s, "\n")`. -/
def splitNl : GoStr → List GoStr
  | [] => [[]]
  | c :: rest =>
    if c = '\n' then [] :: splitNl rest
    else
      match splitNl rest with
      | l :: ls => (c :: l) :: ls
      | [] => [[c]]

/-! ## Agent data model (`internal/agent/types.go`) -/

/-- `AgentRole`: a closed string enumeration in the source; the four
constants `engineering_manager`, `senior_engineer`, `senior_qa`,
`senior_tech_lead`. -/
inductive AgentRole where
  | em
  | engineer
  | qa
  | techLead
deriving DecidableEq

/-- The Go string value of each `AgentRole` constant. -/
def roleString : AgentRole → GoStr
  | .em => str "engineering_manager"
  | .engineer => str "senior_engineer"
  | .qa => str "senior_qa"
  | .techLead => str "senior_tech_lead"

/-- `agent.ImplementFeatureResponse`. -/
structure ImplementFeatureResponse where
  Success : Bool
  Message : GoStr
  FilesModified : List GoStr
  CommandsExecuted : List GoStr
  BuildOutput : GoStr
  NextSteps : GoStr
  Error : GoStr
deriving DecidableEq

/-- `agent.AgentTransition`.  The `Timestamp time.Time` field is wall-clock
data never read by any modelled logic and is omitted. -/
structure AgentTransition where
  FromAgent : AgentRole
  ToAgent : AgentRole
  Reason : GoStr
deriving DecidableEq

/-- `agent.AgentSummary`. -/
structure AgentSummary where
  Role : GoStr
  TaskCompleted : GoStr
  FilesChanged : List GoStr
  Iterations : Nat
  Success : Bool
deriving DecidableEq

/-- `agent.WorkflowResult`.  `AgentSummaries map[string]AgentSummary` is
modelled as a function on roles (the keys written are exactly the four
role strings, on which `roleString` is injective). -/
structure WorkflowResult where
  Success : Bool
  CompletedPhases : List GoStr
  FilesModified : List GoStr
  TestsAdded : List GoStr
  QualityChecks : List GoStr
  BuildOutput : GoStr
  AgentSummaries : AgentRole → Option AgentSummary
  WorkflowHistory : List AgentTransition
  NextSteps : GoStr
  Error : GoStr
  FailureReason : GoStr

/-! ## Regular expressions (the fragment used by `initializeErrorPatterns`)

The source compiles eleven patterns with `regexp.MustCompile`, all of the
shape `(?i)(alt1|alt2|...)` where each alternative is a concatenation of
literals and of the character-class pieces `\s*`, `\s+`, `\w+`, `[\s\w]*`,
`.*`.  `(?i)` is discharged by matching lower-case literals against the
lower-cased subject text.  RE2 classes: `\s = [\t\n\f\r ]`,
`\w = [0-9A-Za-z_]`, `.` is any character except `\n`. -/

inductive CharCls where
  | ws
  | word
  | wsword
  | anyNoNL
deriving DecidableEq

/-- Membership in RE2 `\s`. -/
def wsChar (c : Char) : Bool :=
  c = ' ' ∨ c = '\t' ∨ c = '\n' ∨ c = '\x0c' ∨ c = '\r'

/-- Membership in RE2 `\w`. -/
def wordChar (c : Char) : Bool :=
  ('a' ≤ c ∧ c ≤ 'z') ∨ ('A' ≤ c ∧ c ≤ 'Z') ∨ ('0' ≤ c ∧ c ≤ '9') ∨ c = '_'

def CharCls.mem : CharCls → Char → Bool
  | .ws, c => wsChar c
  | .word, c => wordChar c
  | .wsword, c => wsChar c || wordChar c
  | .anyNoNL, c => c ≠ '\n'

inductive Re where
  | lit (s : GoStr)
  | cls (c : CharCls)
  | star (c : CharCls)
  | cat (a b : Re)
  | alt (a b : Re)
deriving DecidableEq

/-- `c+` is `cc*`. -/
def Re.plus (c : CharCls) : Re := .cat (.cls c) (.star c)

/-- Suffixes remaining after `c*` consumes zero or more leading
class-characters. -/
def starSuffixes (c : CharCls) : GoStr → List GoStr
  | [] => [[]]
  | x :: xs => (x :: xs) :: (if c.mem x then starSuffixes c xs else [])

/-- All suffixes remaining after the pattern matches a prefix of the input
(backtracking semantics; empty list = no match at this position). -/
def Re.matchPrefix : Re → GoStr → List GoStr
  | .lit s, input => if s.isPrefixOf input then [input.drop s.length] else []
  | .cls c, input =>
    match input with
    | [] => []
    | x :: xs => if c.mem x then [xs] else []
  | .star c, input => starSuffixes c input
  | .cat a b, input => (a.matchPrefix input).flatMap b.matchPrefix
  | .alt a b, input => a.matchPrefix input ++ b.matchPrefix input

/-- `regexp.MatchString`: the subject contains a match anywhere. -/
def Re.rmatch (re : Re) : GoStr → Bool
  | [] => !(re.matchPrefix []).isEmpty
  | x :: xs => !(re.matchPrefix (x :: xs)).isEmpty || re.rmatch xs

/-! ## Error classifier (`initializeErrorPatterns`, `analyzeErrorContext`) -/

structure ErrorPattern where
  Pattern : Re
  Category : String
  Severity : Nat
  Suggestions : List String
deriving DecidableEq

structure ErrorContext where
  Category : String
  Severity : Nat
  Suggestions : List String
  IsRecoverable : Bool
  RequiresHelp : Bool
deriving DecidableEq

/-- `(?i)(undefined:\s*\w+|undeclared name:\s*\w+|cannot find[\s\w]*:\s*\w+)` -/
def reUndefined : Re :=
  .alt (.cat (.lit (str "undefined:")) (.cat (.star .ws) (.plus .word)))
    (.alt (.cat (.lit (str "undeclared name:")) (.cat (.star .ws) (.plus .word)))
      (.cat (.lit (str "cannot find"))
        (.cat (.star .wsword) (.cat (.lit (str ":")) (.cat (.star .ws) (.plus .word))))))

/-- `(?i)(syntax error|unexpected \w+|expected \w+)` -/
def reSyntax : Re :=
  .alt (.lit (str "syntax error"))
    (.alt (.cat (.lit (str "unexpected ")) (.plus .word))
      (.cat (.lit (str "expected ")) (.plus .word)))

/-- `(?i)(import cycle|circular import|cyclic import)` -/
def reImportCycle : Re :=
  .alt (.lit (str "import cycle"))
    (.alt (.lit (str "circular import")) (.lit (str "cyclic import")))

/-- `(?i)(module\s+\w+\s+not found|no such file or directory|package \w+ is not in GOROOT)` -/
def reMissingDep : Re :=
  .alt (.cat (.lit (str "module"))
      (.cat (.plus .ws) (.cat (.plus .word) (.cat (.plus .ws) (.lit (str "not found"))))))
    (.alt (.lit (str "no such file or directory"))
      (.cat (.lit (str "package "))
        (.cat (.plus .word) (.lit (str " is not in goroot")))))

/-- `(?i)(permission denied|access denied|operation not permitted)` -/
def rePermission : Re :=
  .alt (.lit (str "permission denied"))
    (.alt (.lit (str "access denied")) (.lit (str "operation not permitted")))

/-- `(?i)(test failed|assertion failed|panic: test timed out)` -/
def reTestFailure : Re :=
  .alt (.lit (str "test failed"))
    (.alt (.lit (str "assertion failed")) (.lit (str "panic: test timed out")))

/-- `(?i)(no tests to run|no test files|testing: warning: no tests to run)` -/
def reNoTests : Re :=
  .alt (.lit (str "no tests to run"))
    (.alt (.lit (str "no test files")) (.lit (str "testing: warning: no tests to run")))

/-- `(?i)(panic:|runtime error|nil pointer dereference|index out of range)` -/
def reRuntime : Re :=
  .alt (.lit (str "panic:"))
    (.alt (.lit (str "runtime error"))
      (.alt (.lit (str "nil pointer dereference")) (.lit (str "index out of range"))))

/-- `(?i)(type \w+ has no field \w+|cannot use \w+ as \w+ value)` -/
def reTypeError : Re :=
  .alt (.cat (.lit (str "type "))
      (.cat (.plus .word) (.cat (.lit (str " has no field ")) (.plus .word))))
    (.cat (.lit (str "cannot use "))
      (.cat (.plus .word) (.cat (.lit (str " as ")) (.cat (.plus .word) (.lit (str " value"))))))

/-- `(?i)(connection refused|timeout|no route to host|dial tcp.*refused)` -/
def reNetwork : Re :=
  .alt (.lit (str "connection refused"))
    (.alt (.lit (str "timeout"))
      (.alt (.lit (str "no route to host"))
        (.cat (.lit (str "dial tcp")) (.cat (.star .anyNoNL) (.lit (str "refused"))))))

/-- `(?i)(fatal: not a git repository|git.*error|merge conflict)` -/
def reGit : Re :=
  .alt (.lit (str "fatal: not a git repository"))
    (.alt (.cat (.lit (str "git")) (.cat (.star .anyNoNL) (.lit (str "error"))))
      (.lit (str "merge conflict")))

/-- The pattern table of `initializeErrorPatterns`, in declaration order. -/
def errorPatterns : List ErrorPattern :=
  [ { Pattern := reUndefined, Category := "undefined_symbol", Severity := 4,
      Suggestions := ["Check import statements", "Verify function/variable names",
        "Add missing declarations"] },
    { Pattern := reSyntax, Category := "syntax_error", Severity := 4,
      Suggestions := ["Check brackets, braces, and parentheses", "Verify function signatures",
        "Check for missing semicolons or commas"] },
    { Pattern := reImportCycle, Category := "import_cycle", Severity := 3,
      Suggestions := ["Restructure package dependencies", "Create interface abstraction",
        "Move shared code to separate package"] },
    { Pattern := reMissingDep, Category := "missing_dependency", Severity := 3,
      Suggestions := ["Run 'go mod tidy'", "Add missing dependency with 'go get'",
        "Check module path in go.mod"] },
    { Pattern := rePermission, Category := "permission_error", Severity := 3,
      Suggestions := ["Check file permissions", "Verify write access to target directory",
        "Run with appropriate privileges"] },
    { Pattern := reTestFailure, Category := "test_failure", Severity := 2,
      Suggestions := ["Review test logic and assertions", "Check test data and setup",
        "Verify function behavior"] },
    { Pattern := reNoTests, Category := "no_tests", Severity := 1,
      Suggestions := ["Create test files with *_test.go pattern",
        "Add test functions starting with 'Test'", "Check test file naming conventions"] },
    { Pattern := reRuntime, Category := "runtime_error", Severity := 4,
      Suggestions := ["Add nil checks", "Validate array/slice bounds", "Add error handling"] },
    { Pattern := reTypeError, Category := "type_error", Severity := 3,
      Suggestions := ["Check struct field names", "Verify type compatibility",
        "Add type conversions where needed"] },
    { Pattern := reNetwork, Category := "network_error", Severity := 2,
      Suggestions := ["Check service availability", "Verify network connectivity",
        "Review endpoint URLs and ports"] },
    { Pattern := reGit, Category := "git_error", Severity := 2,
      Suggestions := ["Initialize git repository if needed", "Resolve merge conflicts",
        "Check git configuration"] } ]

/-- The shared fold of `analyzeErrorContext` and `RouteAgent`: walk the list
keeping the first element so far among those satisfying `sat` whose score is
strictly greater than the current best (`if bestMatch == nil ||
x.score > bestMatch.score`). -/
def betterAcc (sat : α → Bool) (score : α → Nat) (acc : Option α) (x : α) : Option α :=
  if sat x then
    match acc with
    | none => some x
    | some b => if score x > score b then some x else some b
  else acc

def bestBy (sat : α → Bool) (score : α → Nat) : Option α → List α → Option α
  | acc, [] => acc
  | acc, x :: xs => bestBy sat score (betterAcc sat score acc x) xs

/-- The subject text of the classifier:
`strings.ToLower(result.Error + " " + result.BuildOutput + " " + result.Message)`. -/
def errorText (result : ImplementFeatureResponse) : GoStr :=
  toLowerStr (result.Error ++ str " " ++ result.BuildOutput ++ str " " ++ result.Message)

/-- `analyzeErrorContext`: find the most severe matching pattern (first
declared wins ties); default context `unknown`/2 when nothing matches. -/
def analyzeErrorContext (result : ImplementFeatureResponse) : ErrorContext :=
  match bestBy (fun p => p.Pattern.rmatch (errorText result)) (·.Severity) none errorPatterns with
  | none =>
    { Category := "unknown", Severity := 2,
      Suggestions := ["Review error logs", "Check implementation logic"],
      IsRecoverable := true, RequiresHelp := false }
  | some bestMatch =>
    { Category := bestMatch.Category, Severity := bestMatch.Severity,
      Suggestions := bestMatch.Suggestions,
      IsRecoverable := bestMatch.Severity ≤ 3,
      RequiresHelp := bestMatch.Severity ≥ 3 &&
        (bestMatch.Category = "missing_dependency" ∨
         bestMatch.Category = "permission_error" ∨
         bestMatch.Category = "network_error") }

/-! ## Routing helper predicates (`router` helper functions) -/

/-- `isTestFile`: the lower-cased name contains one of the test patterns. -/
def isTestFile (filename : GoStr) : Bool :=
  [str "_test.go", str ".test.js", str ".test.ts", str ".spec.js", str ".spec.ts",
   str "test_", str "_test.py", str "/test/", str "/tests/"].any
    (fun pattern => goContains (toLowerStr filename) pattern)

/-- `hasTestsAdded`: some modified file is a test file. -/
def hasTestsAdded (result : ImplementFeatureResponse) : Bool :=
  result.FilesModified.any isTestFile

/-- `isNonTestableCode`. -/
def isNonTestableCode (result : ImplementFeatureResponse) : Bool :=
  if result.Message = [] then false
  else
    [str "non-testable", str "cannot test", str "untestable",
     str "no tests needed", str "testing not applicable",
     str "manual testing only", str "ui only", str "configuration only"].any
      (fun pattern => goContains (toLowerStr result.Message) pattern)

/-- `isQualityIssue`. -/
def isQualityIssue (result : ImplementFeatureResponse) : Bool :=
  if result.Error = [] then false
  else
    [str "code quality", str "lint", str "format", str "style",
     str "naming convention", str "complexity", str "duplication",
     str "security", str "performance", str "maintainability"].any
      (fun pattern => goContains (toLowerStr result.Error) pattern)

/-- `isArchitectureIssue`. -/
def isArchitectureIssue (result : ImplementFeatureResponse) : Bool :=
  if result.Error = [] then false
  else
    [str "architecture", str "design pattern", str "separation of concerns",
     str "coupling", str "cohesion", str "dependency injection",
     str "interface design", str "api design", str "structure"].any
      (fun pattern => goContains (toLowerStr result.Error) pattern)

/-- `isStructuredRejection`. -/
def isStructuredRejection (result : ImplementFeatureResponse) : Bool :=
  if result.Error = [] then false
  else
    [str "rejection_reason:",
     str "route_to: engineering_manager",
     str "requirements_not_met",
     str "security_concerns",
     str "unnecessary_duplication",
     str "pattern_deviation"].any
      (fun pattern => goContains (toLowerStr result.Error) pattern)

/-! ## Routing engine (`initializeRules`, `RouteAgent`) -/

structure RoutingRule where
  FromAgent : AgentRole
  Condition : ImplementFeatureResponse → Bool
  NextAgent : AgentRole
  Reason : GoStr
  Priority : Nat

/-- The rule table of `initializeRules`, in declaration order. -/
def engineRules : List RoutingRule :=
  [ -- Engineering Manager rules
    { FromAgent := .em, Condition := fun result => result.Success,
      NextAgent := .engineer, Reason := str "Plan approved, starting implementation",
      Priority := 10 },
    { FromAgent := .em, Condition := fun result => !result.Success,
      NextAgent := .em, Reason := str "Planning failed, retrying", Priority := 5 },
    -- Senior Engineer rules
    { FromAgent := .engineer,
      Condition := fun result => result.Success && result.FilesModified.length > 0,
      NextAgent := .qa, Reason := str "Implementation complete, needs testing",
      Priority := 20 },
    { FromAgent := .engineer,
      Condition := fun result =>
        result.Success && result.FilesModified.length = 0 &&
        !goContains (toLowerStr result.Message) (str "failed") &&
        !goContains (toLowerStr result.Error) (str "failed"),
      NextAgent := .techLead,
      Reason := str "Task completed without file changes, skip to quality review",
      Priority := 19 },
    { FromAgent := .engineer,
      Condition := fun result =>
        if result.Success then false
        else
          let errorCtx := analyzeErrorContext result
          errorCtx.Category = "syntax_error" || errorCtx.Category = "undefined_symbol" ||
          errorCtx.Category = "type_error" || errorCtx.Category = "import_cycle",
      NextAgent := .engineer,
      Reason := str "Critical build errors detected, continuing implementation fixes",
      Priority := 18 },
    { FromAgent := .engineer,
      Condition := fun result =>
        if result.Success then false
        else
          let errorCtx := analyzeErrorContext result
          errorCtx.Category = "missing_dependency" || errorCtx.Category = "permission_error",
      NextAgent := .em,
      Reason := str "Dependency or permission issues detected, need planning support",
      Priority := 15 },
    { FromAgent := .engineer,
      Condition := fun result =>
        if result.Success then false
        else
          let errorCtx := analyzeErrorContext result
          errorCtx.Category = "runtime_error" && errorCtx.Severity ≥ 3,
      NextAgent := .engineer,
      Reason := str "Runtime errors detected, applying targeted fixes",
      Priority := 16 },
    { FromAgent := .engineer,
      Condition := fun result =>
        if result.Success then false
        else
          let errorCtx := analyzeErrorContext result
          errorCtx.Category = "network_error" || errorCtx.Category = "git_error",
      NextAgent := .em,
      Reason := str "External system issues detected, need guidance",
      Priority := 12 },
    { FromAgent := .engineer, Condition := fun result => !result.Success,
      NextAgent := .em, Reason := str "Implementation failed, need replanning",
      Priority := 5 },
    -- Senior QA Engineer rules
    { FromAgent := .qa,
      Condition := fun result => result.Success && hasTestsAdded result,
      NextAgent := .techLead,
      Reason := str "Tests added and passing, ready for quality review",
      Priority := 20 },
    { FromAgent := .qa,
      Condition := fun result =>
        if result.Success then false
        else
          let errorCtx := analyzeErrorContext result
          errorCtx.Category = "test_failure" && errorCtx.Severity ≥ 2,
      NextAgent := .engineer,
      Reason := str "Significant test failures found, implementation needs fixes",
      Priority := 17 },
    { FromAgent := .qa,
      Condition := fun result =>
        if result.Success then false
        else
          let errorCtx := analyzeErrorContext result
          errorCtx.Category = "no_tests" || errorCtx.Severity ≤ 1,
      NextAgent := .qa,
      Reason := str "Missing or insufficient tests, continuing test development",
      Priority := 10 },
    { FromAgent := .qa,
      Condition := fun result => !result.Success && isNonTestableCode result,
      NextAgent := .techLead,
      Reason := str "Code determined non-testable, skip to quality review",
      Priority := 10 },
    { FromAgent := .qa, Condition := fun result => !result.Success,
      NextAgent := .em, Reason := str "QA process failed, need guidance",
      Priority := 5 },
    -- Senior Tech Lead rules
    { FromAgent := .techLead, Condition := fun result => result.Success,
      NextAgent := .techLead,
      Reason := str "Quality review passed, workflow complete", Priority := 20 },
    { FromAgent := .techLead,
      Condition := fun result => !result.Success && isQualityIssue result,
      NextAgent := .engineer,
      Reason := str "Quality issues found, need implementation fixes",
      Priority := 15 },
    { FromAgent := .techLead,
      Condition := fun result => !result.Success && isStructuredRejection result,
      NextAgent := .em,
      Reason := str "Tech Lead structured rejection - routing to EM as requested",
      Priority := 20 },
    { FromAgent := .techLead,
      Condition := fun result => !result.Success && isArchitectureIssue result,
      NextAgent := .em, Reason := str "Architecture concerns, need replanning",
      Priority := 15 },
    { FromAgent := .techLead, Condition := fun result => !result.Success,
      NextAgent := .em, Reason := str "Tech lead review failed, need guidance",
      Priority := 5 } ]

/-- `"true"`/`"false"` as printed by `%v` on a Go bool. -/
def boolString (b : Bool) : GoStr := if b then str "true" else str "false"

/-- `RouteAgent`: keep the first rule (in table order) whose priority is
strictly greater than the best so far, among the rules for the current
agent whose condition accepts the result. -/
def RouteAgent (currentAgent : AgentRole) (result : ImplementFeatureResponse) :
    Except GoStr (AgentRole × GoStr) :=
  match bestBy (fun rule => decide (rule.FromAgent = currentAgent) && rule.Condition result)
      (·.Priority) none engineRules with
  | none =>
    .error (str "no routing rule matched for agent " ++ roleString currentAgent ++
      str " with result: success=" ++ boolString result.Success)
  | some rule => .ok (rule.NextAgent, rule.Reason)

/-! ## Workflow controller (`ExecuteWorkflow` and helpers) -/

/-- The configuration consumed by the loop: `config.Workflow.MaxTotalIterations`
and `getMaxIterationsForAgent` (the per-role `MaxIterations` lookup with its
default collapsed into a total function). -/
structure WorkflowConfig where
  MaxTotalIterations : Nat
  maxIterationsForAgent : AgentRole → Nat

/-- `WorkflowState` (the fields the loop reads and writes; `ProjectContext`
and `StartTime` carry only prompt text and wall-clock data). -/
structure LoopState where
  CurrentAgent : AgentRole
  IterationCounts : AgentRole → Nat
  TaskDescription : GoStr
  WorkflowHistory : List AgentTransition

/-- `totalIterations`: the sum of the per-role counters (the Go map holds
exactly the roles that have been incremented; absent keys contribute 0). -/
def totalIterations (state : LoopState) : Nat :=
  state.IterationCounts .em + state.IterationCounts .engineer +
  state.IterationCounts .qa + state.IterationCounts .techLead

/-- `checkIterationLimits`: total cap first, then the current agent's cap. -/
def checkIterationLimits (cfg : WorkflowConfig) (state : LoopState) : Option GoStr :=
  if totalIterations state ≥ cfg.MaxTotalIterations then
    some (str "maximum total iterations (" ++ str (toString cfg.MaxTotalIterations) ++
      str ") exceeded")
  else
    if state.IterationCounts state.CurrentAgent ≥ cfg.maxIterationsForAgent state.CurrentAgent then
      some (str "maximum iterations for agent " ++ roleString state.CurrentAgent ++
        str " (" ++ str (toString (cfg.maxIterationsForAgent state.CurrentAgent)) ++
        str ") exceeded")
    else none

/-- `detectLoop`: some window `i` has `transitions[i].(from,to) =
transitions[i+2].(from,to)`. -/
def hasPingPong : List AgentTransition → Bool
  | a :: b :: c :: rest =>
    (decide (a.FromAgent = c.FromAgent) && decide (a.ToAgent = c.ToAgent)) ||
      hasPingPong (b :: c :: rest)
  | _ => false

def detectLoop (transitions : List AgentTransition) : Bool :=
  if transitions.length < 3 then false else hasPingPong transitions

/-- `validateWorkflowHealth`: the loop check runs only when the history has
more than 3 entries and inspects its last 3; then the excessive-EM check
counts transitions into the EM among the last 5. -/
def validateWorkflowHealth (state : LoopState) : Option GoStr :=
  if 3 < state.WorkflowHistory.length ∧
      detectLoop (state.WorkflowHistory.drop (state.WorkflowHistory.length - 3)) then
    some (str "detected workflow loop, aborting")
  else
    let emCount := ((state.WorkflowHistory.drop (state.WorkflowHistory.length - 5)).filter
      (fun t => decide (t.ToAgent = .em))).length
    if emCount > 3 then some (str "excessive EM interventions, workflow may be stuck")
    else none

/-- `RecoveryAction`. -/
structure RecoveryAction where
  CanRecover : Bool
  NextAgent : AgentRole
  Reason : GoStr

/-- `analyzeAndRecoverFromError` (the invocation-level recovery table). -/
def analyzeAndRecoverFromError (e : GoStr) (currentAgent : AgentRole) : RecoveryAction :=
  let errorMsg := toLowerStr e
  if goContains errorMsg (str "connection") || goContains errorMsg (str "timeout") then
    { CanRecover := true, NextAgent := currentAgent, Reason := str "Connection error, retrying" }
  else if goContains errorMsg (str "not registered") then
    { CanRecover := true, NextAgent := .em, Reason := str "Agent unavailable, replanning" }
  else if goContains errorMsg (str "command") || goContains errorMsg (str "restricted") then
    { CanRecover := true, NextAgent := .em,
      Reason := str "Command restrictions, need alternative approach" }
  else if goContains errorMsg (str "file") || goContains errorMsg (str "directory") then
    { CanRecover := true, NextAgent := .em,
      Reason := str "File system issue, need planning support" }
  else if goContains errorMsg (str "deadline") || goContains errorMsg (str "context") then
    { CanRecover := true, NextAgent := .em,
      Reason := str "Timeout occurred, simplifying approach" }
  else
    { CanRecover := false, NextAgent := currentAgent, Reason := str "Unrecoverable error" }

/-- The `if` chain of `categorizeFailure` over the lower-cased message. -/
def categorizeFailureMsg (errorMsg : GoStr) : GoStr :=
  if goContains errorMsg (str "timeout") || goContains errorMsg (str "deadline") then
    str "timeout"
  else if goContains errorMsg (str "connection") then str "connection_failed"
  else if goContains errorMsg (str "not registered") then str "agent_unavailable"
  else if goContains errorMsg (str "command") || goContains errorMsg (str "restricted") then
    str "command_restriction"
  else if goContains errorMsg (str "file") || goContains errorMsg (str "directory") then
    str "filesystem_error"
  else if goContains errorMsg (str "config") then str "configuration_error"
  else if goContains errorMsg (str "git") then str "git_error"
  else str "unknown_error"

/-- `categorizeFailure`. -/
def categorizeFailure (e : GoStr) : GoStr :=
  categorizeFailureMsg (toLowerStr e)

/-- `updateResultWithAgent`. -/
def updateResultWithAgent (result : WorkflowResult) (role : AgentRole)
    (agentResult : ImplementFeatureResponse) : WorkflowResult :=
  let summary : AgentSummary :=
    { Role := roleString role, TaskCompleted := agentResult.Message,
      FilesChanged := agentResult.FilesModified, Iterations := 1,
      Success := agentResult.Success }
  let result :=
    { result with
      AgentSummaries := fun r => if r = role then some summary else result.AgentSummaries r,
      FilesModified := result.FilesModified ++ agentResult.FilesModified,
      BuildOutput :=
        if agentResult.BuildOutput ≠ [] then
          result.BuildOutput ++ str "\n=== " ++ roleString role ++ str " Output ===\n" ++
            agentResult.BuildOutput
        else result.BuildOutput,
      CompletedPhases := result.CompletedPhases ++ [roleString role] }
  match role with
  | .qa => { result with TestsAdded := result.TestsAdded ++ agentResult.FilesModified }
  | .techLead =>
    { result with QualityChecks := result.QualityChecks ++ agentResult.CommandsExecuted }
  | _ => result

/-- `isWorkflowComplete`. -/
def isWorkflowComplete (state : LoopState) (agentResult : ImplementFeatureResponse) : Bool :=
  decide (state.CurrentAgent = .techLead) && agentResult.Success

/-- One loop iteration's oracle input: `timedOut` stands for the wall-clock
test `time.Since(state.StartTime) > timeout`, and `agentStep` is the result
of `executeCurrentAgent` (an invocation-level Go error, or an outcome). -/
structure IterInput where
  timedOut : Bool
  agentStep : Except GoStr ImplementFeatureResponse

/-- The body of the `for` loop of `ExecuteWorkflow`: either exit with the
final `WorkflowResult` (`inl`, a `break`), or continue with the updated
state and accumulated result (`inr`). -/
def loopIter (cfg : WorkflowConfig) (inp : IterInput) (state : LoopState)
    (result : WorkflowResult) : WorkflowResult ⊕ (LoopState × WorkflowResult) :=
  if inp.timedOut then
    .inl { result with
             Success := false, Error := str "Workflow timeout exceeded",
             FailureReason := str "timeout" }
  else
    match checkIterationLimits cfg state with
    | some errMsg =>
      .inl { result with
               Success := false, Error := errMsg,
               FailureReason := str "iteration_limit_exceeded" }
    | none =>
      match inp.agentStep with
      | .error e =>
        if (analyzeAndRecoverFromError e state.CurrentAgent).CanRecover then
          .inr ({ state with
                    WorkflowHistory := state.WorkflowHistory ++
                      [{ FromAgent := state.CurrentAgent,
                         ToAgent := (analyzeAndRecoverFromError e state.CurrentAgent).NextAgent,
                         Reason := str "Error recovery: " ++
                           (analyzeAndRecoverFromError e state.CurrentAgent).Reason }],
                    CurrentAgent := (analyzeAndRecoverFromError e state.CurrentAgent).NextAgent },
            result)
        else
          .inl { result with
                   Success := false,
                   Error := str "Agent execution failed: " ++ e,
                   FailureReason := categorizeFailure e }
      | .ok agentResult =>
        match validateWorkflowHealth state with
        | some hmsg =>
          .inl { updateResultWithAgent result state.CurrentAgent agentResult with
                   Success := false,
                   Error := str "Workflow health check failed: " ++ hmsg,
                   FailureReason := str "workflow_health_failed" }
        | none =>
          if isWorkflowComplete state agentResult then
            .inl { updateResultWithAgent result state.CurrentAgent agentResult with
                     CompletedPhases :=
                       (updateResultWithAgent result state.CurrentAgent agentResult).CompletedPhases
                         ++ [str "workflow_complete"] }
          else
            match RouteAgent state.CurrentAgent agentResult with
            | .error emsg =>
              .inl { updateResultWithAgent result state.CurrentAgent agentResult with
                       Success := false,
                       Error := str "Routing failed: " ++ emsg,
                       FailureReason := str "routing_failed" }
            | .ok (nextAgent, reason) =>
              .inr ({ CurrentAgent := nextAgent,
                      IterationCounts := fun r =>
                        if r = state.CurrentAgent then state.IterationCounts r + 1
                        else state.IterationCounts r,
                      TaskDescription :=
                        if agentResult.NextSteps ≠ [] then agentResult.NextSteps
                        else state.TaskDescription,
                      WorkflowHistory := state.WorkflowHistory ++
                        [{ FromAgent := state.CurrentAgent, ToAgent := nextAgent,
                           Reason := reason }] },
                updateResultWithAgent result state.CurrentAgent agentResult)

/-- The `for` loop, driven by the oracle; `none` when the oracle is
exhausted before the loop exits (every terminating run of the Go loop is
captured by a long enough oracle). -/
def runLoop (cfg : WorkflowConfig) : List IterInput → LoopState → WorkflowResult →
    Option (WorkflowResult × LoopState)
  | [], _, _ => none
  | inp :: rest, state, result =>
    match loopIter cfg inp state result with
    | .inl final => some (final, state)
    | .inr (state', result') => runLoop cfg rest state' result'

/-- The initial `WorkflowState` of `ExecuteWorkflow`. -/
def initialState (description : GoStr) : LoopState :=
  { CurrentAgent := .em, IterationCounts := fun _ => 0,
    TaskDescription := description, WorkflowHistory := [] }

/-- The initial `WorkflowResult` of `ExecuteWorkflow`. -/
def initialResult : WorkflowResult :=
  { Success := true, CompletedPhases := [], FilesModified := [], TestsAdded := [],
    QualityChecks := [], BuildOutput := [], AgentSummaries := fun _ => none,
    WorkflowHistory := [], NextSteps := str "Workflow completed successfully",
    Error := [], FailureReason := [] }

/-- `enhanceResultWithDiagnostics` plus the final history assignment.
`diagText` abstracts the appended diagnostics block, whose content is
wall-clock duration formatting and a Go-map-ordered listing. -/
def finalizeResult (result : WorkflowResult) (state : LoopState) (diagText : GoStr) :
    WorkflowResult :=
  let result := { result with WorkflowHistory := state.WorkflowHistory }
  let result :=
    match state.WorkflowHistory.getLast? with
    | some t =>
      { result with NextSteps := result.NextSteps ++ str " Last transition: " ++
          roleString t.FromAgent ++ str " -> " ++ roleString t.ToAgent ++ str " (" ++
          t.Reason ++ str ")" }
    | none => result
  { result with
    BuildOutput := result.BuildOutput ++ diagText,
    AgentSummaries := fun r =>
      match result.AgentSummaries r with
      | some s =>
        some (if state.IterationCounts r > 0 then { s with Iterations := state.IterationCounts r }
          else s)
      | none => none }

/-- `ExecuteWorkflow`.  `gatherProjectContext` returns a nil error on every
path in the source, so its failure branch is dead and the loop always runs.
The Go function's pair of return values `(*WorkflowResult, error)` is
returned as written at each return site: always `(result, nil)`.
`DocumentTask` on success only logs and never changes the result. -/
def ExecuteWorkflow (cfg : WorkflowConfig) (description : GoStr) (inputs : List IterInput)
    (diagText : GoStr) : Option (WorkflowResult × Option GoStr) :=
  match runLoop cfg inputs (initialState description) initialResult with
  | none => none
  | some p => some (finalizeResult p.1 p.2 diagText, none)

/-! ## Action parser (`internal/agent/engineer.go`, `parseActions`) -/

/-- `agent.Action`, named `GoAction` here (`Action` is taken by Mathlib,
and its `Type` field is spelled `typ`: `Type` is reserved in Lean).
Zero value: all fields empty. -/
structure GoAction where
  typ : GoStr := []
  Path : GoStr := []
  Content : GoStr := []
  Command : GoStr := []
  Pattern : GoStr := []
  SearchPath : GoStr := []
deriving DecidableEq

/-- Flush the in-progress action: commit the accumulated content when in
content mode, then append the action. -/
def flushAction (current : GoAction) (inContent : Bool) (contentAcc : GoStr)
    (actions : List GoAction) : List GoAction :=
  actions ++ [if inContent then { current with Content := goTrimSpace contentAcc } else current]

/-- `strings.Builder` accumulation step of the content loop:
`if contentBuilder.Len() > 0 { WriteString("\n") }; WriteString(line)`. -/
def appendContentLine (acc line : GoStr) : GoStr :=
  if acc.length > 0 then acc ++ '\n' :: line else line

/-- The per-line loop of `parseActions`; carries the open action, the
content-mode flag and the content builder. -/
def parseLines : List GoStr → Option GoAction → Bool → GoStr → List GoAction → List GoAction
  | [], current, inContent, contentAcc, actions =>
    match current with
    | some a => flushAction a inContent contentAcc actions
    | none => actions
  | rawLine :: rest, current, inContent, contentAcc, actions =>
    let line := goTrimSpace rawLine
    if goHasPrefix line (str "ACTION:") then
      let actions :=
        match current with
        | some a => flushAction a inContent contentAcc actions
        | none => actions
      let actionType := goTrimSpace (goTrimPrefix line (str "ACTION:"))
      parseLines rest (some { typ := actionType }) false [] actions
    else
      match current with
      | some a =>
        if goHasPrefix line (str "PATH:") then
          parseLines rest (some { a with Path := goTrimSpace (goTrimPrefix line (str "PATH:")) })
            inContent contentAcc actions
        else if goHasPrefix line (str "COMMAND:") then
          parseLines rest
            (some { a with Command := goTrimSpace (goTrimPrefix line (str "COMMAND:")) })
            inContent contentAcc actions
        else if goHasPrefix line (str "PATTERN:") then
          parseLines rest
            (some { a with Pattern := goTrimSpace (goTrimPrefix line (str "PATTERN:")) })
            inContent contentAcc actions
        else if goHasPrefix line (str "SEARCH_PATH:") then
          parseLines rest
            (some { a with SearchPath := goTrimSpace (goTrimPrefix line (str "SEARCH_PATH:")) })
            inContent contentAcc actions
        else if goHasPrefix line (str "CONTENT:") then
          parseLines rest (some a) true [] actions
        else if inContent && !goHasPrefix line (str "```") then
          parseLines rest (some a) inContent (appendContentLine contentAcc line) actions
        else
          parseLines rest (some a) inContent contentAcc actions
      | none => parseLines rest none inContent contentAcc actions

/-- `parseActions`. -/
def parseActions (response : GoStr) : List GoAction :=
  parseLines (splitNl response) none false [] []

/-! ## Properties of the shared selection fold -/

/-- Join lines with the newline separator (left inverse of `splitNl` on
newline-free lines). -/
def joinNl : List GoStr → GoStr
  | [] => []
  | [l] => l
  | l :: l2 :: ls => l ++ '\n' :: joinNl (l2 :: ls)

/-- A line that the parser treats as plain content when in content mode:
its trimmed form carries none of the `ACTION:`/`PATH:`/`COMMAND:`/
`PATTERN:`/`SEARCH_PATH:`/`CONTENT:` markers (such marker lines open a new
action, set the corresponding field, or restart accumulation instead of
contributing to content).  Code-fence lines are deliberately not excluded:
the parser itself skips them. -/
abbrev contentLineOk (l : GoStr) : Prop :=
  goHasPrefix (goTrimSpace l) (str "ACTION:") = false ∧
  goHasPrefix (goTrimSpace l) (str "PATH:") = false ∧
  goHasPrefix (goTrimSpace l) (str "COMMAND:") = false ∧
  goHasPrefix (goTrimSpace l) (str "PATTERN:") = false ∧
  goHasPrefix (goTrimSpace l) (str "SEARCH_PATH:") = false ∧
  goHasPrefix (goTrimSpace l) (str "CONTENT:") = false

/-- The content a run of content-mode lines leaves in the builder: each
line trimmed, code-fence lines dropped, the rest joined by
`appendContentLine` (newline-separated `strings.Builder` appends). -/
def contentOf (ls : List GoStr) : GoStr :=
  ((ls.map goTrimSpace).filter
    (fun l => !goHasPrefix l (str "```"))).foldl appendContentLine []

/-! ## Derived tables and reachability -/

/-- The priorities of the rules sharing one `fromRole`, in table order. -/
def rolePriorities (role : AgentRole) : List Nat :=
  (engineRules.filter (fun rule => decide (rule.FromAgent = role))).map (·.Priority)

/-- States and accumulated results reachable by iterating the loop body
(`continue` steps only) from a starting configuration. -/
inductive Reaches (cfg : WorkflowConfig) :
    LoopState → WorkflowResult → LoopState → WorkflowResult → Prop where
  | refl (st : LoopState) (res : WorkflowResult) : Reaches cfg st res st res
  | step {st res st1 res1 st2 res2} (inp : IterInput)
      (h : loopIter cfg inp st res = .inr (st1, res1))
      (htail : Reaches cfg st1 res1 st2 res2) : Reaches cfg st res st2 res2

/-! ## Concrete inputs used by counterexamples and witnesses -/

/-- A fully successful outcome with no files and no text. -/
def outSuccess : ImplementFeatureResponse :=
  { Success := true, Message := [], FilesModified := [], CommandsExecuted := [],
    BuildOutput := [], NextSteps := [], Error := [] }

/-- An Engineer outcome: success, zero files modified, and the word
`failed` in its message. -/
def outEngineerCex : ImplementFeatureResponse :=
  { Success := true, Message := str "task failed", FilesModified := [],
    CommandsExecuted := [], BuildOutput := [], NextSteps := [], Error := [] }

/-- A failed outcome whose error text is `undefined: foo`. -/
def outUndefined : ImplementFeatureResponse :=
  { Success := false, Message := [], FilesModified := [], CommandsExecuted := [],
    BuildOutput := [], NextSteps := [], Error := str "undefined: foo" }

/-- A failed outcome matched by both a severity-2 pattern (`test failed`)
and a severity-4 pattern (`panic:`). -/
def outSev24 : ImplementFeatureResponse :=
  { Success := false, Message := [], FilesModified := [], CommandsExecuted := [],
    BuildOutput := [], NextSteps := [], Error := str "test failed panic: x" }

/-- A failed Tech Lead outcome carrying a structured rejection plus
quality and architecture keywords. -/
def outTlReject : ImplementFeatureResponse :=
  { Success := false, Message := [], FilesModified := [], CommandsExecuted := [],
    BuildOutput := [], NextSteps := [],
    Error := str "REJECTION_REASON: security_concerns lint security architecture ROUTE_TO: engineering_manager" }

def trEngQa : AgentTransition :=
  { FromAgent := .engineer, ToAgent := .qa, Reason := str "r1" }

def trQaEng : AgentTransition :=
  { FromAgent := .qa, ToAgent := .engineer, Reason := str "r2" }

def trEmEng : AgentTransition :=
  { FromAgent := .em, ToAgent := .engineer, Reason := str "r0" }

def trQaTl : AgentTransition :=
  { FromAgent := .qa, ToAgent := .techLead, Reason := str "r3" }

/-- A workflow state with the 3-entry ping-pong history
`[Engineer→QA, QA→Engineer, Engineer→QA]`. -/
def stPingPong3 : LoopState :=
  { CurrentAgent := .qa, IterationCounts := fun _ => 0, TaskDescription := [],
    WorkflowHistory := [trEngQa, trQaEng, trEngQa] }

/-- A workflow state with 4 history entries whose last 3 are the ping-pong
`[Engineer→QA, QA→Engineer, Engineer→QA]`. -/
def stPingPong4 : LoopState :=
  { CurrentAgent := .qa, IterationCounts := fun _ => 0, TaskDescription := [],
    WorkflowHistory := [trEmEng, trEngQa, trQaEng, trEngQa] }

/-- A workflow state with the loop-free history `[EM→Eng, Eng→QA, QA→TL]`. -/
def stNoLoop3 : LoopState :=
  { CurrentAgent := .techLead, IterationCounts := fun _ => 0, TaskDescription := [],
    WorkflowHistory := [trEmEng, trEngQa, trQaTl] }

/-- The default workflow configuration (`MaxTotalIterations` 7; every role
capped at 2 iterations). -/
def cfgW : WorkflowConfig :=
  { MaxTotalIterations := 7, maxIterationsForAgent := fun _ => 2 }

/-- A loop state whose current agent has exhausted its iteration cap
under `cfgW`. -/
def stMaxed : LoopState :=
  { CurrentAgent := .engineer,
    IterationCounts := fun r => if r = .engineer then 2 else 0,
    TaskDescription := [], WorkflowHistory := [trEmEng] }

/-- An iteration input: no timeout, agent succeeds with `outSuccess`. -/
def inpOk : IterInput := { timedOut := false, agentStep := .ok outSuccess }

/-- An iteration input whose wall-clock timeout has fired. -/
def inpTimeout : IterInput := { timedOut := true, agentStep := .ok outSuccess }

/-- The value returned by `ExecuteWorkflow` under `cfgW` when the first
iteration times out. -/
def w10out : WorkflowResult × Option GoStr :=
  (ExecuteWorkflow cfgW (str "task") [inpTimeout] []).getD (initialResult, none)

/-! ## Theorems: string and selection-fold lemmas -/

theorem goContains_iff (s sub : GoStr) : goContains s sub = true ↔ sub <:+: s := by
  induction s with
  | nil =>
    rw [goContains]
    constructor
    · intro h
      split at h
      · next hp =>
        rcases (List.isPrefixOf_iff_prefix.mp hp) with ⟨t, ht⟩
        exact ⟨[], t, by simpa using ht⟩
      · exact absurd h (by simp)
    · intro h
      have hsub : sub = [] := List.eq_nil_of_infix_nil h
      simp [hsub, List.isPrefixOf_iff_prefix]
  | cons c rest ih =>
    rw [goContains]
    constructor
    · intro h
      split at h
      · next hp =>
        rcases List.isPrefixOf_iff_prefix.mp hp with ⟨t, ht⟩
        exact ⟨[], t, by simpa using ht⟩
      · rcases ih.mp h with ⟨p, t, hpt⟩
        exact ⟨c :: p, t, by simp [← hpt]⟩
    · rintro ⟨p, t, hpt⟩
      match p with
      | [] =>
        have : sub.isPrefixOf (c :: rest) = true := by
          rw [List.isPrefixOf_iff_prefix]
          exact ⟨t, by simpa using hpt⟩
        simp [this]
      | d :: p' =>
        split
        · rfl
        · apply ih.mpr
          exact ⟨p', t, by simpa using congrArg List.tail hpt⟩

theorem goContains_of_infix {s sub sub' : GoStr}
    (h : goContains s sub = true) (h' : sub' <:+: sub) : goContains s sub' = true :=
  (goContains_iff s sub').mpr (h'.trans ((goContains_iff s sub).mp h))

theorem betterAcc_unsat (sat : α → Bool) (score : α → Nat) (acc : Option α) (x : α)
    (hs : sat x = false) : betterAcc sat score acc x = acc := by
  simp [betterAcc, hs]

theorem betterAcc_sat_none (sat : α → Bool) (score : α → Nat) (x : α)
    (hs : sat x = true) : betterAcc sat score none x = some x := by
  simp [betterAcc, hs]

theorem betterAcc_sat_gt (sat : α → Bool) (score : α → Nat) (a x : α)
    (hs : sat x = true) (hgt : score x > score a) :
    betterAcc sat score (some a) x = some x := by
  simp [betterAcc, hs, hgt]

theorem betterAcc_sat_ngt (sat : α → Bool) (score : α → Nat) (a x : α)
    (hs : sat x = true) (hgt : ¬ score x > score a) :
    betterAcc sat score (some a) x = some a := by
  simp [betterAcc, hs, hgt]

theorem bestBy_isSome (sat : α → Bool) (score : α → Nat) :
    ∀ (xs : List α) (a : α), (bestBy sat score (some a) xs).isSome = true := by
  intro xs
  induction xs with
  | nil => intro a; simp [bestBy]
  | cons x xs ih =>
    intro a
    rw [bestBy]
    by_cases hs : sat x = true
    · by_cases hgt : score x > score a
      · rw [betterAcc_sat_gt sat score a x hs hgt]; exact ih _
      · rw [betterAcc_sat_ngt sat score a x hs hgt]; exact ih _
    · rw [betterAcc_unsat sat score _ x (Bool.not_eq_true _ ▸ hs)]
      exact ih _

theorem bestBy_none_iff (sat : α → Bool) (score : α → Nat) :
    ∀ xs : List α, bestBy sat score none xs = none ↔ ∀ x ∈ xs, sat x = false := by
  intro xs
  induction xs with
  | nil => simp [bestBy]
  | cons x xs ih =>
    rw [bestBy]
    by_cases hs : sat x = true
    · rw [betterAcc_sat_none sat score x hs]
      constructor
      · intro h
        have := bestBy_isSome sat score xs x
        rw [h] at this
        simp at this
      · intro h
        exact absurd hs (by simp [h x (by simp)])
    · have hs' : sat x = false := Bool.not_eq_true _ ▸ hs
      rw [betterAcc_unsat sat score _ x hs', ih]
      constructor
      · intro h y hy
        rcases List.mem_cons.mp hy with rfl | hy2
        · exact hs'
        · exact h y hy2
      · intro h y hy
        exact h y (List.mem_cons_of_mem _ hy)

theorem bestBy_spec (sat : α → Bool) (score : α → Nat) :
    ∀ (xs : List α) (acc : Option α) (b : α),
    bestBy sat score acc xs = some b →
    (acc = some b ∧ ∀ x ∈ xs, sat x = true → score x ≤ score b) ∨
    (∃ pre post, xs = pre ++ b :: post ∧ sat b = true ∧
      (∀ a, acc = some a → score a < score b) ∧
      (∀ x ∈ pre, sat x = true → score x < score b) ∧
      (∀ x ∈ post, sat x = true → score x ≤ score b)) := by
  intro xs
  induction xs with
  | nil =>
    intro acc b h
    rw [bestBy] at h
    exact .inl ⟨h, by simp⟩
  | cons x xs ih =>
    intro acc b h
    rw [bestBy] at h
    by_cases hs : sat x = true
    · match acc with
      | none =>
        rw [betterAcc_sat_none sat score x hs] at h
        rcases ih (some x) b h with ⟨hxb, hbound⟩ | ⟨pre, post, hxs, hsb, haccb, hpre, hpost⟩
        · have hxb2 : x = b := by injection hxb
          subst hxb2
          exact .inr ⟨[], xs, by simp, hs, by simp, by simp, hbound⟩
        · refine .inr ⟨x :: pre, post, by rw [hxs]; rfl, hsb, by simp, ?_, hpost⟩
          intro y hy hsy
          rcases List.mem_cons.mp hy with rfl | hy2
          · exact haccb y rfl
          · exact hpre y hy2 hsy
      | some a =>
        by_cases hgt : score x > score a
        · rw [betterAcc_sat_gt sat score a x hs hgt] at h
          rcases ih (some x) b h with ⟨hxb, hbound⟩ | ⟨pre, post, hxs, hsb, haccb, hpre, hpost⟩
          · have hxb2 : x = b := by injection hxb
            subst hxb2
            refine .inr ⟨[], xs, by simp, hs, ?_, by simp, hbound⟩
            intro a0 ha0
            injection ha0 with ha0e
            subst ha0e
            omega
          · have hxlt : score x < score b := haccb x rfl
            refine .inr ⟨x :: pre, post, by rw [hxs]; rfl, hsb, ?_, ?_, hpost⟩
            · intro a0 ha0
              injection ha0 with ha0e
              subst ha0e
              omega
            · intro y hy hsy
              rcases List.mem_cons.mp hy with rfl | hy2
              · exact hxlt
              · exact hpre y hy2 hsy
        · rw [betterAcc_sat_ngt sat score a x hs hgt] at h
          rcases ih (some a) b h with ⟨hab, hbound⟩ | ⟨pre, post, hxs, hsb, haccb, hpre, hpost⟩
          · have hab2 : a = b := by injection hab
            subst hab2
            refine .inl ⟨rfl, ?_⟩
            intro y hy hsy
            rcases List.mem_cons.mp hy with rfl | hy2
            · omega
            · exact hbound y hy2 hsy
          · have halt : score a < score b := haccb a rfl
            refine .inr ⟨x :: pre, post, by rw [hxs]; rfl, hsb, ?_, ?_, hpost⟩
            · intro a0 ha0
              injection ha0 with ha0e
              subst ha0e
              omega
            · intro y hy hsy
              rcases List.mem_cons.mp hy with rfl | hy2
              · omega
              · exact hpre y hy2 hsy
    · have hs2 : sat x = false := Bool.not_eq_true _ ▸ hs
      rw [betterAcc_unsat sat score acc x hs2] at h
      rcases ih acc b h with ⟨hacc, hbound⟩ | ⟨pre, post, hxs, hsb, haccb, hpre, hpost⟩
      · refine .inl ⟨hacc, ?_⟩
        intro y hy hsy
        rcases List.mem_cons.mp hy with rfl | hy2
        · rw [hs2] at hsy; exact absurd hsy (by simp)
        · exact hbound y hy2 hsy
      · refine .inr ⟨x :: pre, post, by rw [hxs]; rfl, hsb, haccb, ?_, hpost⟩
        intro y hy hsy
        rcases List.mem_cons.mp hy with rfl | hy2
        · rw [hs2] at hsy; exact absurd hsy (by simp)
        · exact hpre y hy2 hsy

/-- Starting from an empty accumulator: the returned element is a satisfied
element of the list whose score is maximal among satisfied elements, and every
satisfied element declared before it scores strictly less. -/
theorem bestBy_start_none (sat : α → Bool) (score : α → Nat) (xs : List α) (b : α)
    (h : bestBy sat score none xs = some b) :
    ∃ pre post, xs = pre ++ b :: post ∧ sat b = true ∧
      (∀ x ∈ pre, sat x = true → score x < score b) ∧
      (∀ x ∈ xs, sat x = true → score x ≤ score b) := by
  rcases bestBy_spec sat score xs none b h with ⟨hacc, _⟩ | ⟨pre, post, hxs, hsb, _, hpre, hpost⟩
  · exact absurd hacc (by simp)
  · refine ⟨pre, post, hxs, hsb, hpre, ?_⟩
    intro y hy hsy
    rw [hxs] at hy
    rcases List.mem_append.mp hy with hy2 | hy2
    · exact le_of_lt (hpre y hy2 hsy)
    · rcases List.mem_cons.mp hy2 with rfl | hy3
      · exact le_refl _
      · exact hpost y hy3 hsy

/-! ## Theorems: the routing engine -/

theorem routeAgent_ok_of_rule (cur : AgentRole) (result : ImplementFeatureResponse)
    (i : Nat) (hi : i < engineRules.length)
    (hfrom : (engineRules.get ⟨i, hi⟩).FromAgent = cur)
    (hcond : (engineRules.get ⟨i, hi⟩).Condition result = true) :
    ∃ p, RouteAgent cur result = .ok p := by
  rcases hbest : bestBy (fun rule => decide (rule.FromAgent = cur) && rule.Condition result)
      (·.Priority) none engineRules with _ | b
  · exfalso
    have hall := (bestBy_none_iff _ _ engineRules).mp hbest
    have hsat := hall _ (List.get_mem engineRules i hi)
    simp only [hfrom, hcond, decide_True, Bool.and_self] at hsat
    exact absurd hsat (by simp)
  · exact ⟨(b.NextAgent, b.Reason), by simp [RouteAgent, hbest]⟩

/-- C1: for every current role and every outcome, if at least one rule with
`fromRole` equal to the current role has a predicate accepting the outcome,
then `RouteAgent` returns the next role and reason of a satisfied rule whose
priority is maximal among all satisfied rules for that role; and `RouteAgent`
returns an error if and only if no rule for that role accepts the outcome. -/
theorem RouteAgent_selects_max_priority (cur : AgentRole) (result : ImplementFeatureResponse) :
    ((∃ rule ∈ engineRules, rule.FromAgent = cur ∧ rule.Condition result = true) →
      ∃ rule ∈ engineRules, rule.FromAgent = cur ∧ rule.Condition result = true ∧
        RouteAgent cur result = .ok (rule.NextAgent, rule.Reason) ∧
        ∀ rule2 ∈ engineRules, rule2.FromAgent = cur → rule2.Condition result = true →
          rule2.Priority ≤ rule.Priority) ∧
    ((∃ e, RouteAgent cur result = .error e) ↔
      ∀ rule ∈ engineRules, rule.FromAgent = cur → rule.Condition result = false) := by
  rcases hbest : bestBy (fun rule => decide (rule.FromAgent = cur) && rule.Condition result)
      (·.Priority) none engineRules with _ | b
  · have hall := (bestBy_none_iff _ _ engineRules).mp hbest
    constructor
    · rintro ⟨rule, hmem, hfrom, hcond⟩
      have hsat := hall rule hmem
      simp only [hfrom, hcond, decide_True, Bool.and_self] at hsat
      exact absurd hsat (by simp)
    · constructor
      · intro _ rule hmem hfrom
        have hsat := hall rule hmem
        simpa only [hfrom, decide_True, Bool.true_and] using hsat
      · intro _
        refine ⟨str "no routing rule matched for agent " ++ roleString cur ++
          str " with result: success=" ++ boolString result.Success, ?_⟩
        unfold RouteAgent
        rw [hbest]
  · rcases bestBy_start_none _ _ _ _ hbest with ⟨pre, post, hxs, hsb, _, hmax⟩
    have hbmem : b ∈ engineRules := by
      rw [hxs]; exact List.mem_append_right _ (List.mem_cons_self _ _)
    rw [Bool.and_eq_true] at hsb
    have hbfrom : b.FromAgent = cur := of_decide_eq_true hsb.1
    have hbcond : b.Condition result = true := hsb.2
    constructor
    · intro _
      refine ⟨b, hbmem, hbfrom, hbcond, by simp [RouteAgent, hbest], ?_⟩
      intro rule2 hmem2 hfrom2 hcond2
      exact hmax rule2 hmem2 (by simp [hfrom2, hcond2])
    · constructor
      · rintro ⟨e, he⟩
        simp [RouteAgent, hbest] at he
      · intro hallf
        have := hallf b hbmem hbfrom
        rw [hbcond] at this
        exact absurd this (by simp)

/-- Witness for C1: at role Manager with a successful outcome, the routing
decision is a maximal-priority satisfied rule. -/
theorem RouteAgent_selects_max_priority_witness :
    ∃ rule ∈ engineRules, rule.FromAgent = .em ∧ rule.Condition outSuccess = true ∧
      RouteAgent .em outSuccess = .ok (rule.NextAgent, rule.Reason) ∧
      ∀ rule2 ∈ engineRules, rule2.FromAgent = .em → rule2.Condition outSuccess = true →
        rule2.Priority ≤ rule.Priority :=
  (RouteAgent_selects_max_priority .em outSuccess).1
    ⟨engineRules.get ⟨0, by decide⟩, List.get_mem engineRules 0 (by decide), rfl, rfl⟩

/-- C2 counterexample: an Engineer outcome with `success=true`, an empty
file list and the word `failed` in its message is accepted by no rule, so
`RouteAgent` fails on it. -/
theorem ruleTable_not_exhaustive_cex :
    outEngineerCex.Success = true ∧ outEngineerCex.FilesModified = [] ∧
    goContains (toLowerStr outEngineerCex.Message) (str "failed") = true ∧
    RouteAgent .engineer outEngineerCex =
      .error (str "no routing rule matched for agent senior_engineer with result: success=true") :=
  ⟨rfl, rfl, by decide, by rfl⟩

/-- C2 (amended): every Manager outcome, every TechLead outcome, and every
failed Engineer or QA outcome is accepted by at least one rule of its role,
so `RouteAgent` cannot fail there; the table is however not exhaustive for
successful Engineer outcomes (counterexample above). -/
theorem ruleTable_failure_coverage (result : ImplementFeatureResponse) :
    (∃ p, RouteAgent .em result = .ok p) ∧
    (∃ p, RouteAgent .techLead result = .ok p) ∧
    (result.Success = false →
      (∃ p, RouteAgent .engineer result = .ok p) ∧
      (∃ p, RouteAgent .qa result = .ok p)) := by
  refine ⟨?_, ?_, ?_⟩
  · cases hS : result.Success
    · refine routeAgent_ok_of_rule .em result 1 (by decide) rfl ?_
      show (!result.Success) = true
      rw [hS]; rfl
    · exact routeAgent_ok_of_rule .em result 0 (by decide) rfl hS
  · cases hS : result.Success
    · refine routeAgent_ok_of_rule .techLead result 18 (by decide) rfl ?_
      show (!result.Success) = true
      rw [hS]; rfl
    · exact routeAgent_ok_of_rule .techLead result 14 (by decide) rfl hS
  · intro hS
    constructor
    · refine routeAgent_ok_of_rule .engineer result 8 (by decide) rfl ?_
      show (!result.Success) = true
      rw [hS]; rfl
    · refine routeAgent_ok_of_rule .qa result 13 (by decide) rfl ?_
      show (!result.Success) = true
      rw [hS]; rfl

/-- Witness for the amended C2: a failed Engineer outcome and a failed QA
outcome are both routed without error. -/
theorem ruleTable_failure_coverage_witness :
    (∃ p, RouteAgent .engineer outUndefined = .ok p) ∧
    (∃ p, RouteAgent .qa outUndefined = .ok p) :=
  (ruleTable_failure_coverage outUndefined).2.2 rfl

/-- C9 counterexample: QA has two distinct rules that share priority 10, and
TechLead has two rules at priority 20 and two at priority 15, so the
priorities of the rules sharing a `fromRole` are not pairwise distinct. -/
theorem rolePriorities_collision_cex :
    rolePriorities .qa = [20, 17, 10, 10, 5] ∧ ¬ (rolePriorities .qa).Nodup ∧
    rolePriorities .techLead = [20, 15, 20, 15, 5] ∧
    ¬ (rolePriorities .techLead).Nodup :=
  ⟨by decide, by decide, by decide, by decide⟩

/-- C9 (amended): within Manager and within Engineer the rule priorities are
pairwise distinct; within QA and within TechLead they are not. -/
theorem rolePriorities_distinct_amended :
    (rolePriorities .em).Nodup ∧ (rolePriorities .engineer).Nodup ∧
    ¬ (rolePriorities .qa).Nodup ∧ ¬ (rolePriorities .techLead).Nodup :=
  ⟨by decide, by decide, by decide, by decide⟩

/-! ## Theorems: the error classifier -/

theorem errorPatterns_severity_le_four : ∀ p ∈ errorPatterns, p.Severity ≤ 4 := by decide

/-- C3: the classifier evaluates every pattern against the lower-cased
concatenation of the outcome's error, output and message fields and returns
the category and severity of a matching pattern of maximal severity, ties
broken by declaration order (the chosen pattern beats everything declared
before it strictly); with no match it returns `unknown` with severity 2; and
whenever a severity-4 pattern matches — in particular together with a
severity-2 one — the returned severity is 4. -/
theorem classifier_most_severe_wins (result : ImplementFeatureResponse) :
    ((∃ p ∈ errorPatterns, p.Pattern.rmatch (errorText result) = true) →
      ∃ pre post p, errorPatterns = pre ++ p :: post ∧
        p.Pattern.rmatch (errorText result) = true ∧
        (analyzeErrorContext result).Category = p.Category ∧
        (analyzeErrorContext result).Severity = p.Severity ∧
        (∀ q ∈ errorPatterns, q.Pattern.rmatch (errorText result) = true →
          q.Severity ≤ p.Severity) ∧
        (∀ q ∈ pre, q.Pattern.rmatch (errorText result) = true → q.Severity < p.Severity)) ∧
    ((∀ p ∈ errorPatterns, p.Pattern.rmatch (errorText result) = false) →
      (analyzeErrorContext result).Category = "unknown" ∧
      (analyzeErrorContext result).Severity = 2) ∧
    ((∃ p ∈ errorPatterns, p.Pattern.rmatch (errorText result) = true ∧ p.Severity = 4) →
      (analyzeErrorContext result).Severity = 4) := by
  rcases hbest : bestBy (fun p => p.Pattern.rmatch (errorText result)) (·.Severity)
      none errorPatterns with _ | b
  · have hall := (bestBy_none_iff _ _ errorPatterns).mp hbest
    refine ⟨?_, ?_, ?_⟩
    · rintro ⟨p, hmem, hmatch⟩
      have := hall p hmem
      rw [hmatch] at this
      exact absurd this (by simp)
    · intro _
      constructor
      · simp [analyzeErrorContext, hbest]
      · simp [analyzeErrorContext, hbest]
    · rintro ⟨p, hmem, hmatch, _⟩
      have := hall p hmem
      rw [hmatch] at this
      exact absurd this (by simp)
  · rcases bestBy_start_none _ _ _ _ hbest with ⟨pre, post, hxs, hsb, hpre, hmax⟩
    have hbmem : b ∈ errorPatterns := by
      rw [hxs]; exact List.mem_append_right _ (List.mem_cons_self _ _)
    refine ⟨?_, ?_, ?_⟩
    · intro _
      exact ⟨pre, post, b, hxs, hsb, by simp [analyzeErrorContext, hbest],
        by simp [analyzeErrorContext, hbest], hmax, hpre⟩
    · intro hallf
      have := hallf b hbmem
      rw [hsb] at this
      exact absurd this (by simp)
    · rintro ⟨p, hmem, hmatch, hp4⟩
      have hle := hmax p hmem hmatch
      have hb4 := errorPatterns_severity_le_four b hbmem
      have hsev : (analyzeErrorContext result).Severity = b.Severity := by
        simp [analyzeErrorContext, hbest]
      omega

/-- Witness for C3: a text matched by the severity-2 `test failed` pattern
and the severity-4 `panic:` pattern is classified with severity 4. -/
theorem classifier_most_severe_wins_witness :
    (errorPatterns.get ⟨5, by decide⟩).Severity = 2 ∧
    (errorPatterns.get ⟨5, by decide⟩).Pattern.rmatch (errorText outSev24) = true ∧
    (errorPatterns.get ⟨7, by decide⟩).Severity = 4 ∧
    (analyzeErrorContext outSev24).Severity = 4 :=
  ⟨by decide, by decide, by decide,
    (classifier_most_severe_wins outSev24).2.2
      ⟨errorPatterns.get ⟨7, by decide⟩, List.get_mem errorPatterns 7 (by decide),
        by decide, by decide⟩⟩

/-- C4: an Engineer outcome failing with error text `undefined: foo` (empty
output and message) is classified `undefined_symbol` with severity 4, and
`RouteAgent` keeps control on Engineer through the self-fix rule, not the
Manager. -/
theorem engineer_self_fix_on_undefined_symbol :
    (analyzeErrorContext outUndefined).Category = "undefined_symbol" ∧
    (analyzeErrorContext outUndefined).Severity = 4 ∧
    RouteAgent .engineer outUndefined =
      .ok (.engineer, str "Critical build errors detected, continuing implementation fixes") :=
  ⟨by decide, by decide, by rfl⟩

/-- C7: every failed TechLead outcome whose error text contains (case
insensitively) the tokens `REJECTION_REASON: security_concerns` and
`ROUTE_TO: engineering_manager` is routed to the Manager by the
priority-20 structured-rejection rule, whatever other keywords (quality,
architecture, ...) the same text contains. -/
theorem structured_rejection_routes_to_manager (result : ImplementFeatureResponse)
    (hS : result.Success = false)
    (h1 : goContains (toLowerStr result.Error) (str "rejection_reason: security_concerns") = true)
    (h2 : goContains (toLowerStr result.Error) (str "route_to: engineering_manager") = true) :
    RouteAgent .techLead result =
      .ok (.em, str "Tech Lead structured rejection - routing to EM as requested") := by
  have hne : result.Error ≠ [] := by
    intro he
    rw [he] at h1
    have hfalse : goContains (toLowerStr [])
        (str "rejection_reason: security_concerns") = false := by decide
    rw [hfalse] at h1
    exact absurd h1 (by simp)
  have hsr : isStructuredRejection result = true := by
    unfold isStructuredRejection
    rw [if_neg hne]
    apply List.any_eq_true.mpr
    exact ⟨str "rejection_reason:", by simp,
      goContains_of_infix h1 (by decide)⟩
  cases hq : isQualityIssue result <;> cases ha : isArchitectureIssue result <;>
    simp [RouteAgent, engineRules, bestBy, betterAcc, hS, hsr, hq, ha]

/-- Witness for C7: a concrete rejection text also containing quality and
architecture keywords is routed to the Manager. -/
theorem structured_rejection_routes_to_manager_witness :
    RouteAgent .techLead outTlReject =
      .ok (.em, str "Tech Lead structured rejection - routing to EM as requested") :=
  structured_rejection_routes_to_manager outTlReject rfl (by decide) (by decide)

/-! ## Theorems: workflow health -/

/-- C5 counterexample: a history of exactly 3 entries
`[Engineer→QA, QA→Engineer, Engineer→QA]` contains the claimed
`transition[i].(from,to) = transition[i+2].(from,to)` pattern, yet the
workflow-health check does not fail on it (the loop check only runs when
the history has more than 3 entries). -/
theorem loop_check_three_entries_cex :
    detectLoop stPingPong3.WorkflowHistory = true ∧
    validateWorkflowHealth stPingPong3 = none :=
  ⟨by decide, by decide⟩

/-- C5 (amended): the loop check runs only when the transition history has
more than 3 entries, and then fails with the loop message whenever the last
3 entries contain an `i` with `transition[i].(from,to) =
transition[i+2].(from,to)`; a history of at most 3 entries never fails the
health check, and `[A→B, B→C, C→D]` contains no such pattern. -/
theorem loop_check_amended :
    (∀ state : LoopState, 3 < state.WorkflowHistory.length →
      detectLoop (state.WorkflowHistory.drop (state.WorkflowHistory.length - 3)) = true →
      validateWorkflowHealth state = some (str "detected workflow loop, aborting")) ∧
    (∀ state : LoopState, state.WorkflowHistory.length ≤ 3 →
      validateWorkflowHealth state = none) ∧
    detectLoop [trEmEng, trEngQa, trQaTl] = false := by
  refine ⟨?_, ?_, by decide⟩
  · intro st h1 h2
    unfold validateWorkflowHealth
    rw [if_pos ⟨h1, h2⟩]
  · intro st h
    have hcount : ((st.WorkflowHistory.drop (st.WorkflowHistory.length - 5)).filter
        (fun t => decide (t.ToAgent = .em))).length ≤ 3 := by
      calc ((st.WorkflowHistory.drop (st.WorkflowHistory.length - 5)).filter
              (fun t => decide (t.ToAgent = .em))).length
          ≤ (st.WorkflowHistory.drop (st.WorkflowHistory.length - 5)).length :=
            List.length_filter_le _ _
        _ ≤ st.WorkflowHistory.length := by rw [List.length_drop]; omega
        _ ≤ 3 := h
    simp only [validateWorkflowHealth]
    rw [if_neg (by rintro ⟨h1, _⟩; omega), if_neg (by omega)]

/-- Witness for the amended C5: a 4-entry history whose last 3 are the
ping-pong triggers the loop failure; the loop-free 3-entry history passes. -/
theorem loop_check_amended_witness :
    validateWorkflowHealth stPingPong4 = some (str "detected workflow loop, aborting") ∧
    validateWorkflowHealth stNoLoop3 = none :=
  ⟨loop_check_amended.1 stPingPong4 (by decide) (by decide),
   loop_check_amended.2.1 stNoLoop3 (by decide)⟩

/-! ## Theorems: iteration limits and loop totality -/

theorem checkIterationLimits_none_lt (cfg : WorkflowConfig) (st : LoopState)
    (h : checkIterationLimits cfg st = none) :
    st.IterationCounts st.CurrentAgent < cfg.maxIterationsForAgent st.CurrentAgent := by
  unfold checkIterationLimits at h
  split at h
  · exact absurd h (by simp)
  · split at h
    · exact absurd h (by simp)
    · next hc => omega

theorem loopIter_inr_counts (cfg : WorkflowConfig) (inp : IterInput) (st : LoopState)
    (res : WorkflowResult) (st1 : LoopState) (res1 : WorkflowResult)
    (h : loopIter cfg inp st res = .inr (st1, res1)) :
    st1.IterationCounts = st.IterationCounts ∨
    (checkIterationLimits cfg st = none ∧
      st1.IterationCounts = fun r =>
        if r = st.CurrentAgent then st.IterationCounts r + 1 else st.IterationCounts r) := by
  unfold loopIter at h
  split at h
  · exact absurd h (by simp)
  · split at h
    · exact absurd h (by simp)
    · next hchk =>
      split at h
      · split at h
        · injection h with h1
          injection h1 with h2 h3
          subst h2
          exact .inl rfl
        · exact absurd h (by simp)
      · split at h
        · exact absurd h (by simp)
        · split at h
          · exact absurd h (by simp)
          · split at h
            · exact absurd h (by simp)
            · injection h with h1
              injection h1 with h2 h3
              subst h2
              exact .inr ⟨hchk, rfl⟩

theorem reaches_counts_le (cfg : WorkflowConfig) {st0 : LoopState} {res0 : WorkflowResult}
    {st : LoopState} {res : WorkflowResult} (h : Reaches cfg st0 res0 st res)
    (h0 : ∀ role, st0.IterationCounts role ≤ cfg.maxIterationsForAgent role) :
    ∀ role, st.IterationCounts role ≤ cfg.maxIterationsForAgent role := by
  induction h with
  | refl => exact h0
  | step inp hstep htail ih =>
    apply ih
    rcases loopIter_inr_counts _ _ _ _ _ _ hstep with hsame | ⟨hchk, hbump⟩
    · intro role
      rw [hsame]
      exact h0 role
    · intro role
      simp only [hbump]
      split
      · next hr =>
        subst hr
        have := checkIterationLimits_none_lt _ _ hchk
        omega
      · exact h0 role

/-- C6: every state reachable by the workflow loop from the initial state
satisfies `perRoleIterationCounts[role] ≤ maxIterationsForRole(role)` for
every role; and whenever the current role's count has reached its maximum at
the top of a loop iteration (and the wall-clock timeout, which is checked
first, has not fired), the loop terminates with `failureReason`
`iteration_limit_exceeded` instead of executing that role again. -/
theorem iteration_limit_invariant :
    (∀ (cfg : WorkflowConfig) (description : GoStr) (st : LoopState) (res : WorkflowResult),
      Reaches cfg (initialState description) initialResult st res →
      ∀ role, st.IterationCounts role ≤ cfg.maxIterationsForAgent role) ∧
    (∀ (cfg : WorkflowConfig) (inp : IterInput) (st : LoopState) (res : WorkflowResult),
      inp.timedOut = false →
      cfg.maxIterationsForAgent st.CurrentAgent ≤ st.IterationCounts st.CurrentAgent →
      ∃ m, loopIter cfg inp st res =
        .inl { res with
                 Success := false, Error := m,
                 FailureReason := str "iteration_limit_exceeded" }) := by
  constructor
  · intro cfg description st res h
    exact reaches_counts_le cfg h (by intro role; simp [initialState])
  · intro cfg inp st res ht hmax
    have hchk : ∃ m, checkIterationLimits cfg st = some m := by
      unfold checkIterationLimits
      by_cases h1 : totalIterations st ≥ cfg.MaxTotalIterations
      · rw [if_pos h1]
        exact ⟨_, rfl⟩
      · rw [if_neg h1, if_pos hmax]
        exact ⟨_, rfl⟩
    rcases hchk with ⟨m, hm⟩
    refine ⟨m, ?_⟩
    unfold loopIter
    rw [if_neg (by simp [ht]), hm]

/-- Witness for C6: under the default configuration the initial state
satisfies the invariant, and a state whose Engineer count has reached its
cap of 2 exits with `iteration_limit_exceeded`. -/
theorem iteration_limit_invariant_witness :
    (initialState []).IterationCounts .engineer ≤ cfgW.maxIterationsForAgent .engineer ∧
    ∃ m, loopIter cfgW inpOk stMaxed initialResult =
      .inl { initialResult with
               Success := false, Error := m,
               FailureReason := str "iteration_limit_exceeded" } :=
  ⟨iteration_limit_invariant.1 cfgW [] (initialState []) initialResult
      (Reaches.refl _ _) .engineer,
   iteration_limit_invariant.2 cfgW inpOk stMaxed initialResult rfl (by decide)⟩

theorem append_ne_nil_left {a b : GoStr} (h : a ≠ []) : a ++ b ≠ [] := by
  cases a with
  | nil => exact absurd rfl h
  | cons c t => simp

theorem updateResult_Success (res : WorkflowResult) (role : AgentRole)
    (ar : ImplementFeatureResponse) :
    (updateResultWithAgent res role ar).Success = res.Success := by
  unfold updateResultWithAgent
  cases role <;> rfl

theorem categorizeFailure_ne_nil (e : GoStr) : categorizeFailure e ≠ [] := by
  unfold categorizeFailure categorizeFailureMsg
  repeat' split
  all_goals decide

theorem checkIterationLimits_some_ne_nil (cfg : WorkflowConfig) (st : LoopState) (m : GoStr)
    (h : checkIterationLimits cfg st = some m) : m ≠ [] := by
  unfold checkIterationLimits at h
  split at h
  · injection h with h1
    subst h1
    exact append_ne_nil_left (append_ne_nil_left (by decide))
  · split at h
    · injection h with h1
      subst h1
      exact append_ne_nil_left (append_ne_nil_left (append_ne_nil_left
        (append_ne_nil_left (by decide))))
    · exact absurd h (by simp)

theorem loopIter_inl_tags (cfg : WorkflowConfig) (inp : IterInput) (st : LoopState)
    (res : WorkflowResult) (final : WorkflowResult)
    (hres : res.Success = true) (h : loopIter cfg inp st res = .inl final) :
    final.Success = false → final.FailureReason ≠ [] ∧ final.Error ≠ [] := by
  unfold loopIter at h
  split at h
  · injection h with h1
    subst h1
    intro _
    exact ⟨show str "timeout" ≠ [] by decide,
      show str "Workflow timeout exceeded" ≠ [] by decide⟩
  · split at h
    · next m hm =>
      injection h with h1
      subst h1
      intro _
      exact ⟨show str "iteration_limit_exceeded" ≠ [] by decide,
        checkIterationLimits_some_ne_nil _ _ _ hm⟩
    · split at h
      · split at h
        · exact absurd h (by simp)
        · injection h with h1
          subst h1
          intro _
          refine ⟨categorizeFailure_ne_nil _, ?_⟩
          show str "Agent execution failed: " ++ _ ≠ []
          exact append_ne_nil_left (by decide)
      · split at h
        · injection h with h1
          subst h1
          intro _
          refine ⟨show str "workflow_health_failed" ≠ [] by decide, ?_⟩
          show str "Workflow health check failed: " ++ _ ≠ []
          exact append_ne_nil_left (by decide)
        · split at h
          · injection h with h1
            subst h1
            intro hfS
            rw [show ∀ X : WorkflowResult, ∀ l,
                ({ X with CompletedPhases := l } : WorkflowResult).Success = X.Success
              from fun _ _ => rfl] at hfS
            rw [updateResult_Success, hres] at hfS
            exact absurd hfS (by simp)
          · split at h
            · injection h with h1
              subst h1
              intro _
              refine ⟨show str "routing_failed" ≠ [] by decide, ?_⟩
              show str "Routing failed: " ++ _ ≠ []
              exact append_ne_nil_left (by decide)
            · exact absurd h (by simp)

theorem loopIter_inr_success (cfg : WorkflowConfig) (inp : IterInput) (st : LoopState)
    (res : WorkflowResult) (st1 : LoopState) (res1 : WorkflowResult)
    (h : loopIter cfg inp st res = .inr (st1, res1)) : res1.Success = res.Success := by
  unfold loopIter at h
  split at h
  · exact absurd h (by simp)
  · split at h
    · exact absurd h (by simp)
    · split at h
      · split at h
        · injection h with h1
          injection h1 with h2 h3
          subst h3
          rfl
        · exact absurd h (by simp)
      · split at h
        · exact absurd h (by simp)
        · split at h
          · exact absurd h (by simp)
          · split at h
            · exact absurd h (by simp)
            · injection h with h1
              injection h1 with h2 h3
              subst h3
              exact updateResult_Success _ _ _

theorem runLoop_tags (cfg : WorkflowConfig) :
    ∀ (inputs : List IterInput) (st : LoopState) (res : WorkflowResult),
    res.Success = true → ∀ (r : WorkflowResult) (stf : LoopState),
    runLoop cfg inputs st res = some (r, stf) →
    r.Success = false → r.FailureReason ≠ [] ∧ r.Error ≠ [] := by
  intro inputs
  induction inputs with
  | nil =>
    intro st res hres r stf h
    rw [runLoop] at h
    exact absurd h (by simp)
  | cons inp rest ih =>
    intro st res hres r stf h
    rw [runLoop] at h
    rcases hit : loopIter cfg inp st res with final | p
    · rw [hit] at h
      injection h with h1
      injection h1 with h2 h3
      subst h2
      exact loopIter_inl_tags cfg inp st res final hres hit
    · rw [hit] at h
      have hs1 : p.2.Success = res.Success := loopIter_inr_success cfg inp st res p.1 p.2 hit
      exact ih p.1 p.2 (hs1.trans hres) r stf h

theorem finalize_preserves (res : WorkflowResult) (st : LoopState) (diag : GoStr) :
    (finalizeResult res st diag).Success = res.Success ∧
    (finalizeResult res st diag).Error = res.Error ∧
    (finalizeResult res st diag).FailureReason = res.FailureReason := by
  unfold finalizeResult
  cases st.WorkflowHistory.getLast? <;> exact ⟨rfl, rfl, rfl⟩

/-- C10: `ExecuteWorkflow` is total at its interface: whenever the run
terminates it returns a result together with a `nil` Go error, and every
failure is reported only through `Success=false` with a non-empty
`FailureReason` tag and a non-empty error message, never through the error
return value. -/
theorem executeWorkflow_total (cfg : WorkflowConfig) (description : GoStr)
    (inputs : List IterInput) (diagText : GoStr) (out : WorkflowResult × Option GoStr)
    (h : ExecuteWorkflow cfg description inputs diagText = some out) :
    out.2 = none ∧
    (out.1.Success = false → out.1.FailureReason ≠ [] ∧ out.1.Error ≠ []) := by
  unfold ExecuteWorkflow at h
  rcases hr : runLoop cfg inputs (initialState description) initialResult with _ | p
  · rw [hr] at h
    exact absurd h (by simp)
  · rw [hr] at h
    injection h with h1
    subst h1
    refine ⟨rfl, ?_⟩
    intro hS
    have hf := finalize_preserves p.1 p.2 diagText
    rw [hf.1] at hS
    have htags := runLoop_tags cfg inputs _ _ rfl p.1 p.2 hr hS
    rw [hf.2.1, hf.2.2]
    exact htags

/-- Witness for C10 on a run whose first iteration times out. -/
theorem executeWorkflow_total_witness :
    w10out.2 = none ∧
    (w10out.1.Success = false → w10out.1.FailureReason ≠ [] ∧ w10out.1.Error ≠ []) :=
  executeWorkflow_total cfgW (str "task") [inpTimeout] [] w10out (by rfl)

/-! ## Theorems: the action parser -/

theorem dropWhile_head_not (p : α → Bool) (l : List α) (c : α) (t : List α)
    (h : List.dropWhile p l = c :: t) : p c = false := by
  induction l with
  | nil => simp [List.dropWhile] at h
  | cons a l ih =>
    rw [List.dropWhile_cons] at h
    by_cases hp : p a = true
    · rw [if_pos hp] at h
      exact ih h
    · rw [if_neg hp] at h
      injection h with h1 _
      subst h1
      exact Bool.not_eq_true _ ▸ hp

theorem goTrimSpace_idem (s : GoStr) : goTrimSpace (goTrimSpace s) = goTrimSpace s := by
  have hrw : ∀ u : GoStr, goTrimSpace u =
      List.rdropWhile isSpaceChar (List.dropWhile isSpaceChar u) := fun _ => rfl
  rw [hrw, hrw]
  have hA : List.dropWhile isSpaceChar
      (List.rdropWhile isSpaceChar (List.dropWhile isSpaceChar s)) =
      List.rdropWhile isSpaceChar (List.dropWhile isSpaceChar s) := by
    rcases hg : List.rdropWhile isSpaceChar (List.dropWhile isSpaceChar s) with _ | ⟨c, t⟩
    · rfl
    · have hc : isSpaceChar c = false := by
        rcases List.rdropWhile_prefix (p := isSpaceChar)
            (l := List.dropWhile isSpaceChar s) with ⟨t2, ht⟩
        rw [hg] at ht
        exact dropWhile_head_not isSpaceChar s c (t ++ t2) (by rw [← ht]; rfl)
      rw [List.dropWhile_cons, if_neg (by simp [hc])]
  rw [hA, List.rdropWhile_idempotent]

theorem splitNl_no_newline (l : GoStr) (h : '\n' ∉ l) : splitNl l = [l] := by
  induction l with
  | nil => rfl
  | cons c t ih =>
    rw [splitNl, if_neg (by intro hc; subst hc; exact h (List.mem_cons_self _ _)),
      ih (fun hm => h (List.mem_cons_of_mem _ hm))]

theorem splitNl_append (s t : GoStr) (hs : '\n' ∉ s) :
    splitNl (s ++ '\n' :: t) = s :: splitNl t := by
  induction s with
  | nil => rw [List.nil_append, splitNl, if_pos rfl]
  | cons c s2 ih =>
    rw [List.cons_append, splitNl,
      if_neg (by intro hc; subst hc; exact hs (List.mem_cons_self _ _)),
      ih (fun hm => hs (List.mem_cons_of_mem _ hm))]

/-- C8 counterexample: a content line with leading whitespace does not
appear unchanged in the parsed action's content — the parser trims every
line, so `  indented` is stored as `indented`. -/
theorem parseActions_not_verbatim_cex :
    (parseActions (str "ACTION: WRITE_FILE\nCONTENT:\nhello\n  indented")).map (·.Content) =
      [str "hello\nindented"] ∧
    str "hello\nindented" ≠ str "hello\n  indented" :=
  ⟨by decide, by decide⟩

theorem parseLines_content_seg (ls : List GoStr) :
    ∀ (tail : List GoStr) (a : GoAction) (acc : GoStr) (actions : List GoAction),
    (∀ l ∈ ls, contentLineOk l) →
    parseLines (ls ++ tail) (some a) true acc actions =
      parseLines tail (some a) true
        (((ls.map goTrimSpace).filter
          (fun l => !goHasPrefix l (str "```"))).foldl appendContentLine acc) actions := by
  induction ls with
  | nil => intro tail a acc actions _; rfl
  | cons l ls ih =>
    intro tail a acc actions hmark
    have hl := hmark l (List.mem_cons_self _ _)
    have hrest : ∀ x ∈ ls, contentLineOk x :=
      fun x hx => hmark x (List.mem_cons_of_mem _ hx)
    rw [List.cons_append, parseLines]
    simp only [hl.1, hl.2.1, hl.2.2.1, hl.2.2.2.1, hl.2.2.2.2.1, hl.2.2.2.2.2,
      Bool.false_eq_true, if_false]
    by_cases hf : goHasPrefix (goTrimSpace l) (str "```") = true
    · simp only [hf, Bool.not_true, Bool.true_and, Bool.false_eq_true, if_false]
      rw [ih tail a acc actions hrest]
      simp only [List.map_cons, List.filter_cons, hf, Bool.not_true, Bool.false_eq_true,
        if_false]
    · have hf2 : goHasPrefix (goTrimSpace l) (str "```") = false :=
        Bool.not_eq_true _ ▸ hf
      simp only [hf2, Bool.not_false, Bool.true_and, if_true]
      rw [ih tail a (appendContentLine acc (goTrimSpace l)) actions hrest]
      simp only [List.map_cons, List.filter_cons, hf2, Bool.not_false, if_true,
        List.foldl_cons]

theorem parseLines_content_end (ls : List GoStr) (a : GoAction) (acc : GoStr)
    (actions : List GoAction) (hmark : ∀ l ∈ ls, contentLineOk l) :
    parseLines ls (some a) true acc actions =
      actions ++
        [{ a with
             Content := goTrimSpace (((ls.map goTrimSpace).filter
               (fun l => !goHasPrefix l (str "```"))).foldl appendContentLine acc) }] := by
  have h := parseLines_content_seg ls [] a acc actions hmark
  rw [List.append_nil] at h
  rw [h]
  rfl

theorem splitNl_join (ls : List GoStr) (hne : ls ≠ []) (hnl : ∀ l ∈ ls, '\n' ∉ l) :
    splitNl (joinNl ls) = ls := by
  induction ls with
  | nil => exact absurd rfl hne
  | cons l ls ih =>
    cases ls with
    | nil => exact splitNl_no_newline l (hnl l (List.mem_cons_self _ _))
    | cons l2 ls2 =>
      rw [joinNl, splitNl_append _ _ (hnl l (List.mem_cons_self _ _)),
        ih (by simp) (fun x hx => hnl x (List.mem_cons_of_mem _ hx))]

theorem splitNl_join_append (ls : List GoStr) (t : GoStr) (hne : ls ≠ [])
    (hnl : ∀ l ∈ ls, '\n' ∉ l) :
    splitNl (joinNl ls ++ '\n' :: t) = ls ++ splitNl t := by
  induction ls with
  | nil => exact absurd rfl hne
  | cons l ls ih =>
    cases ls with
    | nil => rw [joinNl, splitNl_append _ _ (hnl l (List.mem_cons_self _ _))]; rfl
    | cons l2 ls2 =>
      rw [joinNl, List.append_assoc, List.cons_append,
        splitNl_append _ _ (hnl l (List.mem_cons_self _ _)),
        ih (by simp) (fun x hx => hnl x (List.mem_cons_of_mem _ hx))]
      rfl

/-- C8 (amended): every line is whitespace-trimmed before processing.
After a `CONTENT:` line, every subsequent line up to the next `ACTION:`
line or end of input that carries no field marker is appended to the
action's content in trimmed form, joined by newline (`contentOf`), with
code-fence lines skipped; the accumulated content is trimmed once more at
flush, so leading or trailing whitespace of a content line is not
preserved.  A field-marker line inside content mode (here `PATH: b.go`)
sets the corresponding field and contributes nothing to the content, and
lines after the next `ACTION:` line belong to the next action.  Parsing
`ACTION: WRITE_FILE\nPATH: a.go\nCONTENT:\nhello\nworld\n` yields exactly
one WRITE_FILE action with path `a.go` and content `hello\nworld`. -/
theorem parseActions_content_accumulation (ls : List GoStr) (m : GoStr)
    (hne : ls ≠ [])
    (hnl : ∀ l ∈ ls, '\n' ∉ l)
    (hmark : ∀ l ∈ ls, contentLineOk l)
    (hm : '\n' ∉ m)
    (hmmark : contentLineOk m) :
    parseActions (str "ACTION: WRITE_FILE\nCONTENT:\n" ++ joinNl ls) =
      [{ typ := str "WRITE_FILE", Content := goTrimSpace (contentOf ls) }] ∧
    parseActions (str "ACTION: WRITE_FILE\nCONTENT:\n" ++ joinNl ls ++ '\n' ::
        (str "ACTION: GIVE_UP" ++ '\n' :: m)) =
      [{ typ := str "WRITE_FILE", Content := goTrimSpace (contentOf ls) },
       { typ := str "GIVE_UP" }] ∧
    parseActions (str "ACTION: WRITE_FILE\nCONTENT:\n" ++ joinNl ls ++ '\n' ::
        str "PATH: b.go") =
      [{ typ := str "WRITE_FILE", Path := str "b.go",
         Content := goTrimSpace (contentOf ls) }] ∧
    parseActions (str "ACTION: WRITE_FILE\nPATH: a.go\nCONTENT:\nhello\nworld\n") =
      [{ typ := str "WRITE_FILE", Path := str "a.go", Content := str "hello\nworld" }] := by
  have hstep : ∀ rest : List GoStr,
      parseLines (str "ACTION: WRITE_FILE" :: str "CONTENT:" :: rest) none false [] [] =
        parseLines rest (some { typ := str "WRITE_FILE" }) true [] [] :=
    fun rest => rfl
  refine ⟨?_, ?_, ?_, by decide⟩
  · unfold parseActions
    rw [show str "ACTION: WRITE_FILE\nCONTENT:\n" ++ joinNl ls =
        str "ACTION: WRITE_FILE" ++ '\n' :: (str "CONTENT:" ++ '\n' :: joinNl ls) from rfl,
      splitNl_append _ _ (by decide), splitNl_append _ _ (by decide),
      splitNl_join ls hne hnl, hstep,
      parseLines_content_end ls _ [] [] hmark]
    rfl
  · unfold parseActions
    rw [show str "ACTION: WRITE_FILE\nCONTENT:\n" ++ joinNl ls ++ '\n' ::
          (str "ACTION: GIVE_UP" ++ '\n' :: m) =
        str "ACTION: WRITE_FILE" ++ '\n' :: (str "CONTENT:" ++ '\n' ::
          (joinNl ls ++ '\n' :: (str "ACTION: GIVE_UP" ++ '\n' :: m))) from rfl,
      splitNl_append _ _ (by decide), splitNl_append _ _ (by decide),
      splitNl_join_append ls _ hne hnl,
      splitNl_append _ _ (by decide), splitNl_no_newline m hm, hstep,
      parseLines_content_seg ls _ _ [] [] hmark,
      show ∀ acc : GoStr,
          parseLines [str "ACTION: GIVE_UP", m] (some { typ := str "WRITE_FILE" })
              true acc [] =
            parseLines [m] (some { typ := str "GIVE_UP" }) false []
              (flushAction { typ := str "WRITE_FILE" } true acc []) from fun acc => rfl,
      parseLines]
    simp only [hmmark.1, hmmark.2.1, hmmark.2.2.1, hmmark.2.2.2.1, hmmark.2.2.2.2.1,
      hmmark.2.2.2.2.2, Bool.false_eq_true, if_false, Bool.false_and]
    rfl
  · unfold parseActions
    rw [show str "ACTION: WRITE_FILE\nCONTENT:\n" ++ joinNl ls ++ '\n' :: str "PATH: b.go" =
        str "ACTION: WRITE_FILE" ++ '\n' :: (str "CONTENT:" ++ '\n' ::
          (joinNl ls ++ '\n' :: str "PATH: b.go")) from rfl,
      splitNl_append _ _ (by decide), splitNl_append _ _ (by decide),
      splitNl_join_append ls _ hne hnl, splitNl_no_newline _ (by decide), hstep,
      parseLines_content_seg ls _ _ [] [] hmark]
    rfl

/-- Witness for the amended C8: three content lines — one with surrounding
whitespace, one code fence, one plain — with and without a following
`ACTION:` boundary and with a `PATH:` marker line. -/
theorem parseActions_content_accumulation_witness :
    parseActions (str "ACTION: WRITE_FILE\nCONTENT:\n" ++
        joinNl [str "  hello ", str "```go", str "world  "]) =
      [{ typ := str "WRITE_FILE",
         Content := goTrimSpace (contentOf [str "  hello ", str "```go", str "world  "]) }] ∧
    parseActions (str "ACTION: WRITE_FILE\nCONTENT:\n" ++
        joinNl [str "  hello ", str "```go", str "world  "] ++ '\n' ::
        (str "ACTION: GIVE_UP" ++ '\n' :: str "ignored")) =
      [{ typ := str "WRITE_FILE",
         Content := goTrimSpace (contentOf [str "  hello ", str "```go", str "world  "]) },
       { typ := str "GIVE_UP" }] ∧
    parseActions (str "ACTION: WRITE_FILE\nCONTENT:\n" ++
        joinNl [str "  hello ", str "```go", str "world  "] ++ '\n' :: str "PATH: b.go") =
      [{ typ := str "WRITE_FILE", Path := str "b.go",
         Content := goTrimSpace (contentOf [str "  hello ", str "```go", str "world  "]) }] ∧
    parseActions (str "ACTION: WRITE_FILE\nPATH: a.go\nCONTENT:\nhello\nworld\n") =
      [{ typ := str "WRITE_FILE", Path := str "a.go", Content := str "hello\nworld" }] :=
  parseActions_content_accumulation [str "  hello ", str "```go", str "world  "]
    (str "ignored") (by decide) (by decide) (by decide) (by decide) (by decide)
